import Mathlib

/-!
Verification development for the statement parsing and reconciliation engine
(`parsers.py`, `database.py`).

Modelling conventions.  Every monetary value in the source is parsed from
text by regexes of the shape `[\d,]+\.\d{2}` (exactly two decimals), so all
amounts, totals and balances are whole numbers of cents; money is therefore
embedded as an integer number of cents (`ℤ`), and the float tolerances of the
source (`0.01`, `0.05`, ...) become their cent counterparts (`1`, `5`, ...).
On whole cents Python's `round(x, 2)` is the identity and is omitted.
Calendar dates are embedded as integer ordinals (the source parses
`DD-mmm-YYYY` strings with `_parse_date_internal` and drops rows whose date
fails to parse; the embedded functions receive already-parsed records).
-/

/-- Strip a string like Python's `str.strip()`: drop whitespace at both
ends. -/
def pyStrip (s : String) : String :=
  String.mk (((s.data.dropWhile Char.isWhitespace).reverse.dropWhile
    Char.isWhitespace).reverse)

/-- Uppercase a string character-wise like Python's `str.upper()` (ASCII
letters; the institution keywords the dispatcher tests with this are
ASCII). -/
def pyUpper (s : String) : String := String.mk (s.data.map Char.toUpper)

/-- Lowercase a string character-wise like Python's `str.lower()` (ASCII). -/
def pyLower (s : String) : String := String.mk (s.data.map Char.toLower)

/-- First `n` characters, like Python's `s[:n]`. -/
def pyTake (s : String) (n : Nat) : String := String.mk (s.data.take n)

/-- Split on whitespace runs dropping empty tokens, like Python's
`str.split()` with no argument. -/
def splitWsGo : List Char → List Char → List String
  | cur, [] => if cur.isEmpty then [] else [String.mk cur.reverse]
  | cur, c :: rest =>
    if c.isWhitespace then
      if cur.isEmpty then splitWsGo [] rest
      else String.mk cur.reverse :: splitWsGo [] rest
    else splitWsGo (c :: cur) rest

/-- Python `str.split()` with no argument. -/
def pySplitWs (s : String) : List String := splitWsGo [] s.data

/-- Join strings with single spaces, like Python's `" ".join(...)`. -/
def joinSpace : List String → String
  | [] => ""
  | [s] => s
  | s :: rest => s ++ " " ++ joinSpace rest

/-- Replace the non-overlapping left-to-right occurrences of `pat` by `rep`,
like Python's `str.replace(pat, rep)`; the fuel bounds the recursion and is
instantiated with the length of the subject. -/
def replaceAux (pat rep : List Char) : Nat → List Char → List Char
  | _, [] => []
  | 0, s => s
  | fuel + 1, c :: rest =>
    if pat.isPrefixOf (c :: rest) then
      rep ++ replaceAux pat rep fuel ((c :: rest).drop pat.length)
    else c :: replaceAux pat rep fuel rest

/-- Python's `str.replace(pat, rep)` (for the non-empty patterns the parsers
use). -/
def pyReplace (s pat rep : String) : String :=
  if pat.data.isEmpty then s
  else String.mk (replaceAux pat.data rep.data s.data.length s.data)

/-- Substring test at any position: `pat` occurs somewhere in the list. -/
def infixAt : List Char → List Char → Bool
  | pat, [] => pat.isEmpty
  | pat, c :: rest => pat.isPrefixOf (c :: rest) || infixAt pat rest

/-- Python's `needle in hay` on strings. -/
def containsSub (needle hay : String) : Bool := infixAt needle.data hay.data

/-- Numeric value of a digit list, most significant first. -/
def digitsToNat (ds : List Char) : Nat :=
  ds.foldl (fun n c => 10 * n + (c.toNat - 48)) 0

/-- Digit-or-comma character class `[\d,]`. -/
def isDigitOrComma (c : Char) : Bool := c.isDigit || c == ','

namespace BBVADebit

/-- Tolerance of `BBVADebitParser.extract_movements` (`TOLERANCE = 0.01`
currency units, i.e. one cent). -/
def TOLERANCE : ℕ := 1

/-- Candidate transaction collected by the first pass of
`BBVADebitParser.extract_movements` (one entry of `candidatos`); `monto` in
cents. -/
structure Candidato where
  fecha_oper : String
  fecha_liq : String
  descripcion : String
  monto : ℤ
deriving DecidableEq, Repr

/-- Output row of `BBVADebitParser.extract_movements` (one entry of
`registros`). -/
structure Registro where
  fecha_oper : String
  fecha_liq : String
  descripcion : String
  monto : ℤ
  tipo : String
deriving DecidableEq, Repr

/-- All strictly increasing index lists of length `r` drawn from `l`, in the
enumeration order of Python's `itertools.combinations`. -/
def combinations : Nat → List Nat → List (List Nat)
  | 0, _ => [[]]
  | _ + 1, [] => []
  | r + 1, x :: xs => (combinations r xs).map (x :: ·) ++ combinations (r + 1) xs

/-- The subsets tried by the solver, sizes `1` to `n` (the loop
`for r in range(1, len(candidatos) + 1)`), each size in
`itertools.combinations` order. -/
def subsetEnum (n : Nat) : List (List Nat) :=
  (List.range n).flatMap (fun r => combinations (r + 1) (List.range n))

/-- Sum of the candidate amounts selected by an index list
(`sum(candidatos[i]["monto"] for i in subset_indices)`). -/
def subsetSum (montos : List ℤ) (s : List Nat) : ℤ :=
  (s.map (fun i => montos.getD i 0)).sum

/-- Check `abs(subset_sum - total) < TOLERANCE` from the solver loop. -/
def matchesTotal (montos : List ℤ) (total : ℤ) (s : List Nat) : Bool :=
  (subsetSum montos s - total).natAbs < TOLERANCE

/-- Combinatorial solver of `BBVADebitParser.extract_movements` step 2: if the
declared deposits total is `0` the empty subset counts as found, otherwise the
first subset (ascending size, then enumeration order) within tolerance is
returned; `none` models `found_solution = False`. -/
def solveDeposits (montos : List ℤ) (total : ℤ) : Option (List Nat) :=
  if total = 0 then some []
  else (subsetEnum montos.length).find? (matchesTotal montos total)

/-- Result of steps 2-4 of `BBVADebitParser.extract_movements`:
`warn_deposits` models the `WARNING: No se encontró combinación` diagnostic
and `warn_charges` the `WARNING: Discrepancia en Cargos` diagnostic. -/
structure ExtractResult where
  registros : List Registro
  found_solution : Bool
  calculated_charges : ℤ
  warn_deposits : Bool
  warn_charges : Bool
deriving DecidableEq, Repr

/-- Steps 2-4 of `BBVADebitParser.extract_movements`, starting from the
collected `candidatos` and the two summary totals (in cents). -/
def extract_movements_core (candidatos : List Candidato)
    (total_depositos : ℤ) (total_retiros : ℤ) : ExtractResult :=
  let solved := solveDeposits (candidatos.map (·.monto)) total_depositos
  let deposit_indices := solved.getD []
  let found := solved.isSome
  let registros := candidatos.enum.map (fun p =>
    { fecha_oper := p.2.fecha_oper
      fecha_liq := p.2.fecha_liq
      descripcion := p.2.descripcion
      monto := p.2.monto
      tipo := if deposit_indices.contains p.1 then "Abono" else "Cargo" })
  let calculated_charges :=
    ((candidatos.enum.filter (fun p => !deposit_indices.contains p.1)).map
      (·.2.monto)).sum
  { registros := registros
    found_solution := found
    calculated_charges := calculated_charges
    warn_deposits := !found
    warn_charges := decide ((calculated_charges - total_retiros).natAbs > TOLERANCE) }

/-- Deposits total of `BBVADebitParser._extract_summary_totals`: the regex
match for the `Depósitos / Abonos (+)` summary line is modelled by its
captured amount in cents (`none` when the line is absent); a missing match
leaves the initial `deposits = 0.0`. -/
def summaryDeposits (m_dep : Option ℤ) : ℤ :=
  match m_dep with
  | some v => v
  | none => 0

/-- Candidate amounts (cents) of the spec's subset-sum test:
`[100.00, 200.00, 50.00, 400.00, 75.00]`. -/
def exMontos : List ℤ := [10000, 20000, 5000, 40000, 7500]

/-- Candidates of the spec's subset-sum test. -/
def exCandidatos : List Candidato :=
  [⟨"02/ENE", "02/ENE", "DEP A", 10000⟩,
   ⟨"03/ENE", "03/ENE", "DEP B", 20000⟩,
   ⟨"05/ENE", "05/ENE", "COMPRA C", 5000⟩,
   ⟨"07/ENE", "07/ENE", "COMPRA D", 40000⟩,
   ⟨"09/ENE", "09/ENE", "COMPRA E", 7500⟩]

end BBVADebit

namespace Banorte

/-- Drop whitespace at both ends of a character list (Python `str.strip()` on
the cleaned amount text). -/
def charStrip (l : List Char) : List Char :=
  ((l.dropWhile Char.isWhitespace).reverse.dropWhile Char.isWhitespace).reverse

/-- Match `\d{2}-[A-Z]{3}-\d{4}` at the head of the list, returning the
remainder on success. -/
def matchDatePat : List Char → Option (List Char)
  | d1 :: d2 :: '-' :: a1 :: a2 :: a3 :: '-' :: y1 :: y2 :: y3 :: y4 :: rest =>
    if d1.isDigit && d2.isDigit && a1.isUpper && a2.isUpper && a3.isUpper &&
        y1.isDigit && y2.isDigit && y3.isDigit && y4.isDigit then
      some rest
    else none
  | _ => none

/-- Anchored match of `BanorteCreditParser.REGULAR_START_PATTERN`
(`^\d{2}-[A-Z]{3}-\d{4}\s+\d{2}-[A-Z]{3}-\d{4}`). -/
def isRegularStart (s : String) : Bool :=
  match matchDatePat s.data with
  | none => false
  | some rest =>
    match matchDatePat (rest.dropWhile Char.isWhitespace) with
    | some _ => !(rest.takeWhile Char.isWhitespace).isEmpty
    | none => false

/-- Match `BanorteCreditParser.AMOUNT_PATTERN` (`[+-]\$[\d,]+\.\d{2}`) at the
head of the list, returning the matched characters. -/
def matchAmountAt : List Char → Option (List Char)
  | s :: '$' :: rest =>
    if s == '+' || s == '-' then
      match rest.dropWhile isDigitOrComma with
      | '.' :: d1 :: d2 :: _ =>
        if !(rest.takeWhile isDigitOrComma).isEmpty && d1.isDigit && d2.isDigit then
          some (s :: '$' :: ((rest.takeWhile isDigitOrComma) ++ ['.', d1, d2]))
        else none
      | _ => none
    else none
  | _ => none

/-- Leftmost occurrence of the amount pattern (`AMOUNT_PATTERN.search`). -/
def searchAmountAux : List Char → Option (List Char)
  | [] => none
  | c :: rest =>
    match matchAmountAt (c :: rest) with
    | some m => some m
    | none => searchAmountAux rest

/-- Python `AMOUNT_PATTERN.search(line)`, as the matched substring. -/
def searchAmount (s : String) : Option String :=
  (searchAmountAux s.data).map String.mk

/-- Match `\d+\.\d{2}` at the head of the list, returning its value in
cents. -/
def matchUnsignedNum (l : List Char) : Option ℤ :=
  match l.dropWhile Char.isDigit with
  | '.' :: d1 :: d2 :: _ =>
    if !(l.takeWhile Char.isDigit).isEmpty && d1.isDigit && d2.isDigit then
      some ((digitsToNat (l.takeWhile Char.isDigit) : ℤ) * 100 +
        (digitsToNat [d1, d2] : ℤ))
    else none
  | _ => none

/-- Leftmost match of `[-]?\d+\.\d{2}` (the regex of
`BanorteCreditParser._parse_monto`), as a signed cent value. -/
def searchSignedNum : List Char → Option ℤ
  | [] => none
  | '-' :: rest =>
    match matchUnsignedNum rest with
    | some v => some (-v)
    | none => searchSignedNum rest
  | c :: rest =>
    match matchUnsignedNum (c :: rest) with
    | some v => some v
    | none => searchSignedNum rest

/-- The parser's `_parse_monto`: remove `$` and `,`, strip, then take the
first `[-]?\d+\.\d{2}` match (in cents), defaulting to `0.0`. -/
def parse_monto (txt : String) : ℤ :=
  match searchSignedNum (charStrip (txt.data.filter (fun c => c ≠ '$' && c ≠ ','))) with
  | some v => v
  | none => 0

/-- One output row of `BanorteCreditParser` (keys of the `registros`
dicts). -/
structure BanorteRow where
  fecha_oper : String
  fecha_liq : String
  descripcion : String
  monto : ℤ
  tipo : String
  categoria : String
deriving DecidableEq, Repr

/-- The accumulator `current_mov` of
`BanorteCreditParser._parse_regular_section`. -/
structure PendingMov where
  date_line : String
  desc_lines : List String
  amount_str : Option String
deriving DecidableEq, Repr

/-- The inner `flush_mov` of `_parse_regular_section`: a pending record with a
resolved amount becomes one row; without an amount it is dropped. -/
def flushMov (cur : Option PendingMov) : List BanorteRow :=
  match cur with
  | none => []
  | some mv =>
    match mv.amount_str with
    | none => []
    | some monto_str =>
      let fechas := (pySplitWs mv.date_line).take 2
      let fecha_op := fechas.getD 0 ""
      [{ fecha_oper := fecha_op
         fecha_liq := fechas.getD 1 fecha_op
         descripcion := pyStrip (joinSpace mv.desc_lines)
         monto := ((parse_monto monto_str).natAbs : ℤ)
         tipo := if monto_str.data.contains '-' then "Abono" else "Cargo"
         categoria := "Regular" }]

/-- One loop iteration of `_parse_regular_section` over a raw line, threading
`(registros, current_mov)`. -/
def regStep (st : List BanorteRow × Option PendingMov) (raw : String) :
    List BanorteRow × Option PendingMov :=
  let line := pyStrip raw
  if line = "" then st
  else if isRegularStart line then
    let out := st.1 ++ flushMov st.2
    match searchAmount line with
    | some a => (out, some ⟨line, [pyReplace line a ""], some a⟩)
    | none => (out, some ⟨line, [line], none⟩)
  else
    match st.2 with
    | none => st
    | some mv =>
      match mv.amount_str with
      | none =>
        match searchAmount line with
        | some a =>
          (st.1, some ⟨mv.date_line, mv.desc_lines ++ [pyReplace line a ""], some a⟩)
        | none => (st.1, some ⟨mv.date_line, mv.desc_lines ++ [line], none⟩)
      | some _ => (st.1, some ⟨mv.date_line, mv.desc_lines ++ [line], mv.amount_str⟩)

/-- The parser's `_parse_regular_section`. -/
def parse_regular_section (lines : List String) : List BanorteRow :=
  let st := lines.foldl regStep ([], none)
  st.1 ++ flushMov st.2

/-- Header totals used by `BanorteCreditParser._validation_report` (all in
cents; the regex extraction of `_parse_header` defaults absent fields to
`0.0`). -/
structure Header where
  saldo_anterior : ℤ
  pagos_abonos : ℤ
  compras_cargos : ℤ
  saldo_actual : ℤ
deriving DecidableEq, Repr

/-- The three boolean checks of the `controles` dict of
`_validation_report`. -/
structure Controles where
  cargos_vs_resumen_ok : Bool
  abonos_vs_resumen_ok : Bool
  balance_header_ok : Bool
deriving DecidableEq, Repr

/-- Default tolerance of `_validation_report` (`tol: float = 0.05`, i.e. five
cents). -/
def TOL_TDC : ℕ := 5

/-- Sum of the `monto` column over rows with `tipo == "Cargo"`. -/
def sum_cargos (df : List BanorteRow) : ℤ :=
  ((df.filter (fun r => r.tipo == "Cargo")).map (·.monto)).sum

/-- Sum of the `monto` column over rows with `tipo == "Abono"`. -/
def sum_abonos (df : List BanorteRow) : ℤ :=
  ((df.filter (fun r => r.tipo == "Abono")).map (·.monto)).sum

/-- The effective `BanorteCreditParser._validation_report` (the second,
shadowing definition): compares the movement sums against the header's
declared totals, and the header-derived
`saldo_calc = saldo_anterior - pagos_abonos + compras_cargos` against
`saldo_actual`, each with `abs(diff) <= tol`. -/
def validation_report (header : Header) (df : List BanorteRow) (tol : ℕ) :
    Controles :=
  let sc := sum_cargos df
  let sa := sum_abonos df
  let saldo_calc := header.saldo_anterior - header.pagos_abonos + header.compras_cargos
  { cargos_vs_resumen_ok := decide ((sc - header.compras_cargos).natAbs ≤ tol)
    abonos_vs_resumen_ok := decide ((sa - header.pagos_abonos).natAbs ≤ tol)
    balance_header_ok := decide ((saldo_calc - header.saldo_actual).natAbs ≤ tol) }

/-- Concrete header for the C2 counterexample: previous `100.00`, credits
`30.00`, debits `20.00`, final `110.00`. -/
def exHeaderC2 : Header := ⟨10000, 3000, 2000, 11000⟩

/-- Concrete movements for the C2 counterexample: one `Abono 30.00`, one
`Cargo 20.10` (debit sum off the header by exactly `0.10`). -/
def exMovsC2 : List BanorteRow :=
  [⟨"01-ENE-2025", "01-ENE-2025", "PAGO RECIBIDO", 3000, "Abono", "Regular"⟩,
   ⟨"02-ENE-2025", "02-ENE-2025", "COMPRA", 2010, "Cargo", "Regular"⟩]

end Banorte

namespace ScotiabankV2

/-- The `ScotiabankV2Parser._almost_equal` helper: `False` when either side is
`None`, otherwise `abs(a - b) <= tol` (cents; default `tol = 0.05` is five
cents). -/
def almost_equal (a b : Option ℤ) (tol : ℕ) : Bool :=
  match a, b with
  | some x, some y => decide ((x - y).natAbs ≤ tol)
  | _, _ => false

end ScotiabankV2

namespace ScotiaDebit

/-- Exact fraction used for token coordinates (`x0`, `x1` floats in the
source); the denominator is kept positive by construction, comparisons
cross-multiply. -/
structure Coord where
  num : ℤ
  den : ℤ
deriving DecidableEq, Repr

/-- Integer coordinate. -/
def Coord.ofInt (n : ℤ) : Coord := ⟨n, 1⟩

/-- Coordinate addition. -/
def Coord.add (a b : Coord) : Coord := ⟨a.num * b.den + b.num * a.den, a.den * b.den⟩

/-- Division by a positive natural (used for means and midpoints). -/
def Coord.divNat (a : Coord) (k : ℕ) : Coord := ⟨a.num, a.den * k⟩

/-- Midpoint `(a + b) / 2` of two coordinates. -/
def Coord.mid (a b : Coord) : Coord := (a.add b).divNat 2

/-- Boolean `a <= b` on coordinates. -/
def Coord.leb (a b : Coord) : Bool := decide (a.num * b.den ≤ b.num * a.den)

/-- Boolean `a < b` on coordinates. -/
def Coord.ltb (a b : Coord) : Bool := decide (a.num * b.den < b.num * a.den)

/-- Sum of a list of coordinates. -/
def Coord.sumList (l : List Coord) : Coord := l.foldl Coord.add ⟨0, 1⟩

/-- Mean of a list of coordinates (`cand["x0"].mean()`). -/
def Coord.mean (l : List Coord) : Coord := (Coord.sumList l).divNat l.length

/-- A positioned token as produced by `page.extract_words` after
`_asignar_lineas` has attached `line_id`. -/
structure Word where
  text : String
  x0 : Coord
  x1 : Coord
  line_id : Nat
deriving DecidableEq, Repr

/-- The `headers_map` dict of
`ScotiabankDebitParser._obtener_limites_columnas`, in insertion order. -/
def headersMap : List (String × List String) :=
  [("fecha", ["Fecha", "FECHA"]),
   ("concepto", ["Concepto", "CONCEPTO", "Descripcion", "DESCRIPCION"]),
   ("origen", ["Origen/Referencia", "Origen", "ORIGEN/REFERENCIA", "ORIGEN"]),
   ("deposito", ["Depósito", "Deposito", "DEPÓSITO", "DEPOSITO"]),
   ("retiro", ["Retiro", "RETIRO"]),
   ("saldo", ["Saldo", "SALDO"])]

/-- The `col_x` dict: for each expected column whose keywords match some word,
the mean `x0` of the matching words. -/
def colX (words : List Word) : List (String × Coord) :=
  headersMap.filterMap (fun pr =>
    let cand := words.filter (fun w => pr.2.contains w.text)
    if cand.isEmpty then none
    else some (pr.1, Coord.mean (cand.map (·.x0))))

/-- Stable insertion into a list sorted by ascending column anchor. -/
def insertByX (p : String × Coord) : List (String × Coord) → List (String × Coord)
  | [] => [p]
  | q :: rest => if Coord.leb p.2 q.2 then p :: q :: rest else q :: insertByX p rest

/-- The `sorted(col_x.items(), key=...)` step: columns ordered left to
right. -/
def sortByX : List (String × Coord) → List (String × Coord)
  | [] => []
  | p :: rest => insertByX p (sortByX rest)

/-- Left boundaries: `0` for the first column, otherwise the midpoint with the
previous anchor. -/
def computeLefts (xs : List Coord) : List Coord :=
  (List.range xs.length).map (fun i =>
    if i = 0 then Coord.ofInt 0
    else Coord.mid (xs.getD (i - 1) (Coord.ofInt 0)) (xs.getD i (Coord.ofInt 0)))

/-- Right boundaries: `10_000` for the last column, otherwise the midpoint
with the next anchor. -/
def computeRights (xs : List Coord) : List Coord :=
  (List.range xs.length).map (fun i =>
    if i = xs.length - 1 then Coord.ofInt 10000
    else Coord.mid (xs.getD i (Coord.ofInt 0)) (xs.getD (i + 1) (Coord.ofInt 0)))

/-- The `limites` dict of `_obtener_limites_columnas` (its `cols` entry is
`left_bounds and col_names`, i.e. the sorted column names whenever the bounds
list is non-empty). -/
structure Limites where
  cols : List String
  left : List Coord
  right : List Coord
deriving DecidableEq, Repr

/-- The parser's `_obtener_limites_columnas`: abort (`None`) when fewer than 5
of the 6 expected columns were located, otherwise column boundaries plus the
header line id (first `line_id` of a literal `Fecha` word, `0` if none). -/
def obtener_limites_columnas (words : List Word) : Option (Limites × Nat) :=
  let cx := colX words
  if cx.length < 5 then none
  else
    let sortedCols := sortByX cx
    let xs := sortedCols.map (·.2)
    let headerLine := ((words.filter (fun w => w.text == "Fecha")).map (·.line_id)).headD 0
    some ({ cols := sortedCols.map (·.1)
            left := computeLefts xs
            right := computeRights xs }, headerLine)

/-- The parser's `_asignar_columna`: first column whose
`left <= x_center < right` interval contains the token midpoint, defaulting to
the last column. -/
def asignar_columna (xc : Coord) (lim : Limites) : String :=
  match (lim.cols.zip (lim.left.zip lim.right)).find?
      (fun p => Coord.leb p.2.1 xc && Coord.ltb xc p.2.2) with
  | some p => p.1
  | none => (lim.cols.getLast?).getD ""

/-- Lookup in a row dict, with Python's `row.get(col, "")` default. -/
def rowGet (row : List (String × String)) (k : String) : String :=
  match row.find? (fun p => p.1 == k) with
  | some p => p.2
  | none => ""

/-- Update (or insert, like a Python dict assignment) a key of a row dict. -/
def rowSet (row : List (String × String)) (k v : String) : List (String × String) :=
  if (row.find? (fun p => p.1 == k)).isSome then
    row.map (fun p => if p.1 == k then (p.1, v) else p)
  else row ++ [(k, v)]

/-- The `{c: "" for c in limites["cols"]}` fresh row. -/
def emptyRow (cols : List String) : List (String × String) := cols.map (fun c => (c, ""))

/-- Ordered insertion of a line id. -/
def insertNat (n : Nat) : List Nat → List Nat
  | [] => [n]
  | m :: rest => if n ≤ m then n :: m :: rest else m :: insertNat n rest

/-- Insertion sort of line ids. -/
def sortNats : List Nat → List Nat
  | [] => []
  | n :: rest => insertNat n (sortNats rest)

/-- The ascending group keys of `df.groupby("line_id")`. -/
def lineIds (words : List Word) : List Nat := (sortNats (words.map (·.line_id))).dedup

/-- One line of the row-building loop of `_extraer_movimientos_pagina`:
skip lines up to the header, stop at the trailing-notes marker, assign each
token of the line to the column containing its horizontal midpoint, drop
all-empty rows. -/
def buildStep (words : List Word) (lim : Limites) (headerLine : Nat)
    (st : List (List (String × String)) × Bool) (lid : Nat) :
    List (List (String × String)) × Bool :=
  if st.2 then st
  else if lid ≤ headerLine then st
  else
    let line := words.filter (fun w => w.line_id == lid)
    let lineText := joinSpace (line.map (·.text))
    if containsSub "LAS TASAS DE INTERES ESTAN EXPRESADAS" lineText then (st.1, true)
    else
      let row := line.foldl (fun r w =>
        let col := asignar_columna (Coord.mid w.x0 w.x1) lim
        let cur := rowGet r col
        rowSet r col (if cur == "" then w.text else cur ++ " " ++ w.text))
        (emptyRow lim.cols)
      if row.all (fun pr => pr.2 == "") then st
      else (st.1 ++ [row], false)

/-- The `filas_raw` list of `_extraer_movimientos_pagina` step 4. -/
def buildRows (words : List Word) (lim : Limites) (headerLine : Nat) :
    List (List (String × String)) :=
  ((lineIds words).foldl (buildStep words lim headerLine) ([], false)).1

/-- Anchored full match of the `fecha_regex`
(`^\d{1,2}\s+[A-ZÁÉÍÓÚÑ]{3}$`). -/
def fechaRegex (s : String) : Bool :=
  let l := s.data
  let ds := l.takeWhile Char.isDigit
  let r1 := l.dropWhile Char.isDigit
  let r2 := r1.dropWhile Char.isWhitespace
  (ds.length == 1 || ds.length == 2) &&
    !(r1.takeWhile Char.isWhitespace).isEmpty &&
    r2.length == 3 &&
    r2.all (fun c => c.isUpper || ['Á', 'É', 'Í', 'Ó', 'Ú', 'Ñ'].contains c)

/-- Merge a continuation line into the previous movement (step 5): extend
`concepto`/`origen`, and append `deposito`/`retiro`/`saldo` text not already
contained in the cell. -/
def mergeCont (last row : List (String × String)) : List (String × String) :=
  let last1 := ["concepto", "origen"].foldl (fun l c =>
    let extra := pyStrip (rowGet row c)
    if extra ≠ "" then rowSet l c (pyStrip (rowGet l c ++ " " ++ extra)) else l) last
  ["deposito", "retiro", "saldo"].foldl (fun l c =>
    let extra := pyStrip (rowGet row c)
    if extra ≠ "" && !containsSub extra (rowGet l c) then
      rowSet l c (pyStrip (rowGet l c ++ " " ++ extra))
    else l) last1

/-- One step of the movement-merging loop: a date-shaped `fecha` cell starts a
new movement, anything else is merged into the last movement (and dropped when
there is none). -/
def mergeStep (acc : List (List (String × String))) (row : List (String × String)) :
    List (List (String × String)) :=
  if fechaRegex (pyStrip (rowGet row "fecha")) then acc ++ [row]
  else
    match acc.getLast? with
    | none => acc
    | some last => acc.dropLast ++ [mergeCont last row]

/-- The `movimientos` list of `_extraer_movimientos_pagina` step 5. -/
def mergeFilas (filas : List (List (String × String))) :
    List (List (String × String)) :=
  filas.foldl mergeStep []

/-- A page as handed to `_extraer_movimientos_pagina`: its extracted text and
its positioned words (with line ids already assigned by
`_asignar_lineas`). -/
structure Page where
  texto : String
  words : List Word
deriving DecidableEq, Repr

/-- The parser's `_extraer_movimientos_pagina`: skip pages without the
`Detalle de tus movimientos` marker or without words, abort on column
detection failure, otherwise build and merge the raw movement rows. -/
def extraer_movimientos_pagina (p : Page) : List (List (String × String)) :=
  let normalized := String.mk ((p.texto.data.filter (fun c => !c.isWhitespace)).map Char.toLower)
  if !containsSub "detalledetusmovimientos" normalized then []
  else if p.words.isEmpty then []
  else
    match obtener_limites_columnas p.words with
    | none => []
    | some pr => mergeFilas (buildRows p.words pr.1 pr.2)

/-- Match `[\d,]+\.\d{2}` at the head of the list (value in cents; the match's
commas are removed before conversion, as in `float(m.group(1).replace(",",
""))`). -/
def matchMoneyRun (l : List Char) : Option ℕ :=
  match l.dropWhile isDigitOrComma with
  | '.' :: d1 :: d2 :: _ =>
    if !(l.takeWhile isDigitOrComma).isEmpty && d1.isDigit && d2.isDigit then
      some (digitsToNat ((l.takeWhile isDigitOrComma).filter (· ≠ ',')) * 100 +
        digitsToNat [d1, d2])
    else none
  | _ => none

/-- Leftmost match of `[\d,]+\.\d{2}`. -/
def searchMoney : List Char → Option ℕ
  | [] => none
  | c :: rest =>
    match matchMoneyRun (c :: rest) with
    | some v => some v
    | none => searchMoney rest

/-- The parser's `_parse_monto`: remove `$` and spaces, then the first
`[\d,]+\.\d{2}` match in cents, else `0.0`. -/
def parse_monto (s : String) : ℤ :=
  (((searchMoney (s.data.filter (fun c => c ≠ '$' && c ≠ ' '))).getD 0 : ℕ) : ℤ)

/-- One normalized output row of `ScotiabankDebitParser.extract_movements`. -/
structure ScotiaRow where
  fecha_oper : String
  fecha_liq : String
  descripcion : String
  monto : ℤ
  tipo : String
  categoria : String
  saldo_calculado : ℤ
deriving DecidableEq, Repr

/-- The normalization loop of `ScotiabankDebitParser.extract_movements`:
positive deposit wins as `Abono`, else positive withdrawal as `Cargo`, else
the row keeps `monto = 0.0` and `tipo = "Desconocido"`. -/
def normalizeRow (m : List (String × String)) : ScotiaRow :=
  let deposito := parse_monto (rowGet m "deposito")
  let retiro := parse_monto (rowGet m "retiro")
  { fecha_oper := rowGet m "fecha"
    fecha_liq := rowGet m "fecha"
    descripcion := pyStrip (rowGet m "concepto" ++ " " ++ rowGet m "origen")
    monto := if 0 < deposito then deposito else if 0 < retiro then retiro else 0
    tipo :=
      if 0 < deposito then "Abono" else if 0 < retiro then "Cargo" else "Desconocido"
    categoria := "Regular"
    saldo_calculado := parse_monto (rowGet m "saldo") }

/-- The parser's `extract_movements`: all pages' raw movements, normalized. -/
def extract_movements (pages : List Page) : List ScotiaRow :=
  (pages.flatMap extraer_movimientos_pagina).map normalizeRow

/-- Header words of the C7 counterexample page: five of the six expected
columns are present (`origen` is missing). -/
def exWords : List Word :=
  [⟨"Fecha", ⟨10, 1⟩, ⟨14, 1⟩, 1⟩,
   ⟨"Concepto", ⟨50, 1⟩, ⟨58, 1⟩, 1⟩,
   ⟨"Depósito", ⟨100, 1⟩, ⟨108, 1⟩, 1⟩,
   ⟨"Retiro", ⟨150, 1⟩, ⟨156, 1⟩, 1⟩,
   ⟨"Saldo", ⟨200, 1⟩, ⟨205, 1⟩, 1⟩,
   ⟨"24", ⟨10, 1⟩, ⟨12, 1⟩, 2⟩,
   ⟨"SEP", ⟨13, 1⟩, ⟨16, 1⟩, 2⟩,
   ⟨"DEPOSITO", ⟨50, 1⟩, ⟨58, 1⟩, 2⟩,
   ⟨"1,500.00", ⟨98, 1⟩, ⟨106, 1⟩, 2⟩,
   ⟨"2,500.00", ⟨198, 1⟩, ⟨206, 1⟩, 2⟩]

/-- The C7 counterexample page. -/
def exPage : Page := ⟨"Detalle de tus movimientos", exWords⟩

/-- Words locating only four columns (for the abort side of C7). -/
def exWords4 : List Word :=
  [⟨"Fecha", ⟨10, 1⟩, ⟨14, 1⟩, 1⟩,
   ⟨"Concepto", ⟨50, 1⟩, ⟨58, 1⟩, 1⟩,
   ⟨"Depósito", ⟨100, 1⟩, ⟨108, 1⟩, 1⟩,
   ⟨"Saldo", ⟨200, 1⟩, ⟨205, 1⟩, 1⟩]

/-- A page failing column detection. -/
def exPage4 : Page := ⟨"Detalle de tus movimientos", exWords4⟩

/-- A page whose single data row carries neither deposit nor withdrawal (for
the C3 counterexample). -/
def exPageUnknown : Page :=
  ⟨"Detalle de tus movimientos",
   [⟨"Fecha", ⟨10, 1⟩, ⟨14, 1⟩, 1⟩,
    ⟨"Concepto", ⟨50, 1⟩, ⟨58, 1⟩, 1⟩,
    ⟨"Depósito", ⟨100, 1⟩, ⟨108, 1⟩, 1⟩,
    ⟨"Retiro", ⟨150, 1⟩, ⟨156, 1⟩, 1⟩,
    ⟨"Saldo", ⟨200, 1⟩, ⟨205, 1⟩, 1⟩,
    ⟨"24", ⟨10, 1⟩, ⟨12, 1⟩, 2⟩,
    ⟨"SEP", ⟨13, 1⟩, ⟨16, 1⟩, 2⟩,
    ⟨"COMISION", ⟨50, 1⟩, ⟨58, 1⟩, 2⟩]⟩

end ScotiaDebit

namespace Database

/-- One row of the `balances` table for an account (amounts in cents, cutoff
date as an integer ordinal). -/
structure BalanceRec where
  saldo_inicial : ℤ
  saldo_final : ℤ
  dt_corte : ℤ
deriving DecidableEq, Repr

/-- One row of the `movements` table for an account (amount in cents,
operation date as an integer ordinal). -/
structure MovRec where
  monto : ℤ
  tipo : String
  dt_oper : ℤ
deriving DecidableEq, Repr

/-- Ordered insertion by cutoff date. -/
def insertBalance (b : BalanceRec) : List BalanceRec → List BalanceRec
  | [] => [b]
  | c :: rest =>
    if b.dt_corte ≤ c.dt_corte then b :: c :: rest else c :: insertBalance b rest

/-- The `df_balances.sort_values("dt_corte", ascending=True)` step. -/
def sortBalances : List BalanceRec → List BalanceRec
  | [] => []
  | b :: rest => insertBalance b (sortBalances rest)

/-- The containing-period search loop of `calculate_starting_balance`: walk
the sorted balance rows keeping the previous cutoff (`prev_corte_dt`,
initially `None`); the first period is entered when the target is on/before
its cutoff, later ones when the previous cutoff is strictly before the target
and the target is on/before the own cutoff.  Returns the containing balance
together with `period_start_dt`. -/
def findContaining (target : ℤ) : Option ℤ → List BalanceRec →
    Option (BalanceRec × Option ℤ)
  | _, [] => none
  | none, b :: rest =>
    if target ≤ b.dt_corte then some (b, none)
    else findContaining target (some b.dt_corte) rest
  | some prev, b :: rest =>
    if prev < target ∧ target ≤ b.dt_corte then some (b, some prev)
    else findContaining target (some b.dt_corte) rest

/-- The cutoff of the last element of a list of balance rows, with a default
accumulator (mirrors what `prev_corte_dt` holds when the loop reaches the
element after the list). -/
def lastCorte (acc : Option ℤ) : List BalanceRec → Option ℤ
  | [] => acc
  | p :: ps => lastCorte (some p.dt_corte) ps

/-- The replay loop of `calculate_starting_balance`: `+monto` when the
stripped, lowercased `tipo` is `abono`, `-monto` when `cargo`, unchanged
otherwise. -/
def applyMovs (start : ℤ) (ms : List MovRec) : ℤ :=
  ms.foldl (fun bal m =>
    let t := pyLower (pyStrip m.tipo)
    if t = "abono" then bal + m.monto
    else if t = "cargo" then bal - m.monto
    else bal) start

/-- The period-membership mask
(`period_start_dt < dt_oper <= period_corte`, with no lower bound for the
first period). -/
def periodMask (periodStart : Option ℤ) (corte : ℤ) (m : MovRec) : Bool :=
  match periodStart with
  | some ps => decide (ps < m.dt_oper) && decide (m.dt_oper ≤ corte)
  | none => decide (m.dt_oper ≤ corte)

/-- The balance reconstructor `calculate_starting_balance` of `database.py`
(account filtering and date parsing happen upstream; on whole cents the final
`round(..., 2)` is the identity and is omitted).  Notably, when the movements
table for the account is empty the function returns the containing period's
opening balance if one exists and `0` otherwise — even when the target lies
after every known cutoff. -/
def calculate_starting_balance (balances : List BalanceRec) (movs : List MovRec)
    (target : ℤ) : ℤ :=
  match balances with
  | [] => 0
  | _ :: _ =>
    let sorted := sortBalances balances
    let containing := findContaining target none sorted
    match movs with
    | [] =>
      match containing with
      | some pr => pr.1.saldo_inicial
      | none => 0
    | _ :: _ =>
      match containing with
      | none =>
        match sorted.getLast? with
        | none => 0
        | some latest =>
          applyMovs latest.saldo_final
            (movs.filter (fun m =>
              decide (latest.dt_corte < m.dt_oper) && decide (m.dt_oper < target)))
      | some pr =>
        let periodMovs := movs.filter (periodMask pr.2 pr.1.dt_corte)
        match periodMovs with
        | [] => pr.1.saldo_inicial
        | _ :: _ =>
          applyMovs pr.1.saldo_inicial
            (periodMovs.filter (fun m => decide (m.dt_oper < target)))

end Database

/-- The concrete parser classes the factory can select. -/
inductive ParserChoice where
  | bbvaDebit
  | bbvaCredit
  | scotiabankCredit
  | scotiabankDebit
  | scotiabankV2
  | banorteCredit
deriving DecidableEq, Repr

/-- The effective `get_parser` of `parsers.py` (the second definition, which
shadows the earlier one): the Scotiabank branch is evaluated first and all
keyword checks run over the full uppercased text. -/
def getParser (text : String) : Option ParserChoice :=
  let tu := pyUpper text
  if containsSub "SCOTIABANK" tu || containsSub "DISTRIBUCIÓN DE TU ÚLTIMO PAGO" tu ||
      containsSub "COMPRAS Y CARGOS DIFERIDOS" tu ||
      containsSub "DETALLE DE TUS MOVIMIENTOS" tu then
    some ParserChoice.scotiabankV2
  else if containsSub "BBVA" tu then
    if containsSub "DETALLE DE MOVIMIENTOS REALIZADOS" tu then some ParserChoice.bbvaDebit
    else some ParserChoice.bbvaCredit
  else if containsSub "BANORTE" tu then some ParserChoice.banorteCredit
  else none

/-- The earlier, shadowed `get_parser`: BBVA is checked first, and the
`SCOTIABANK` keyword is only sought in the first 1000 characters. -/
def getParserShadowed (text : String) : Option ParserChoice :=
  let tu := pyUpper text
  if containsSub "BBVA" tu || containsSub "BANCOMER" tu then
    if containsSub "DETALLE DE MOVIMIENTOS REALIZADOS" tu then some ParserChoice.bbvaDebit
    else some ParserChoice.bbvaCredit
  else
    let is_scotiabank :=
      if containsSub "SCOTIABANK" (pyTake tu 1000) then true
      else if containsSub "INVERLAT" tu then true
      else if containsSub "COMPRAS Y CARGOS DIFERIDOS" tu then true
      else if containsSub "DISTRIBUCIÓN DE TU ÚLTIMO PAGO" tu then true
      else false
    if is_scotiabank then
      if containsSub "COMPRAS Y CARGOS DIFERIDOS" tu then some ParserChoice.scotiabankCredit
      else if containsSub "DETALLE DE TUS MOVIMIENTOS" tu then some ParserChoice.scotiabankDebit
      else if containsSub "CUENTA UNICA" tu || containsSub "CUENTA DE DEPOSITO" tu then
        some ParserChoice.scotiabankDebit
      else some ParserChoice.scotiabankCredit
    else if containsSub "BANORTE" tu then some ParserChoice.banorteCredit
    else none

/-- Filler pushing a keyword past the first 1000 characters. -/
def fillerX : String := String.mk (List.replicate 1000 'X')

/-- C8 counterexample text: `BBVA` in the header, `SCOTIABANK` only inside a
transaction description far beyond any early prefix. -/
def c8Text : String :=
  "BBVA BANCOMER ESTADO DE CUENTA " ++ fillerX ++ " SPEI ENVIADO SCOTIABANK REF 123"

/-- Helper: the first element returned by `List.find?` splits the list into a
prefix of failures, the hit, and a remainder. -/
theorem find_eq_some_split {α : Type} (p : α → Bool) :
    ∀ (l : List α) (a : α), l.find? p = some a →
      p a = true ∧ ∃ pre post, l = pre ++ a :: post ∧ ∀ x ∈ pre, p x = false := by
  intro l
  induction l with
  | nil => intro a h; simp [List.find?] at h
  | cons x xs ih =>
    intro a h
    by_cases hp : p x = true
    · rw [List.find?_cons_of_pos _ hp] at h
      cases h
      exact ⟨hp, [], xs, rfl, by simp⟩
    · rw [List.find?_cons_of_neg _ hp] at h
      obtain ⟨ha, pre, post, hsplit, hpre⟩ := ih a h
      refine ⟨ha, x :: pre, post, by simp [hsplit], ?_⟩
      intro y hy
      rcases List.mem_cons.mp hy with rfl | hy
      · simpa using hp
      · exact hpre y hy

/-- C1: the BBVA debit combinatorial classifier searches subsets in ascending
size then enumeration order, labels the first subset within one cent of the
declared deposits total as `Abono` and everything else as `Cargo`; on
candidates `[100.00, 200.00, 50.00, 400.00, 75.00]` with declared total
`300.00` it selects the exact subset `{100.00, 200.00}` (indices `0, 1`) as
`Abono`, the rest as `Cargo`, with `Cargo` sum `525.00`. -/
theorem bbva_combinatorial_classifier_C1 :
    (∀ (montos : List ℤ) (total : ℤ) (s : List Nat), total ≠ 0 →
      BBVADebit.solveDeposits montos total = some s →
        BBVADebit.matchesTotal montos total s = true ∧
        ∃ pre post, BBVADebit.subsetEnum montos.length = pre ++ s :: post ∧
          ∀ t ∈ pre, BBVADebit.matchesTotal montos total t = false) ∧
    (∀ (cs : List BBVADebit.Candidato) (td tr : ℤ) (s : List Nat),
      BBVADebit.solveDeposits (cs.map (·.monto)) td = some s →
        (BBVADebit.extract_movements_core cs td tr).registros.map
            BBVADebit.Registro.tipo =
          (List.range cs.length).map
            (fun i => if s.contains i then "Abono" else "Cargo")) ∧
    BBVADebit.solveDeposits BBVADebit.exMontos 30000 = some [0, 1] ∧
    (BBVADebit.extract_movements_core BBVADebit.exCandidatos 30000 52500).registros.map
        BBVADebit.Registro.tipo =
      ["Abono", "Abono", "Cargo", "Cargo", "Cargo"] ∧
    (BBVADebit.extract_movements_core BBVADebit.exCandidatos 30000 52500).calculated_charges
      = 52500 := by
  refine ⟨?_, ?_, by decide, by decide, by decide⟩
  · intro montos total s htot hsolve
    rw [BBVADebit.solveDeposits, if_neg htot] at hsolve
    exact find_eq_some_split _ _ _ hsolve
  · intro cs td tr s hsolve
    simp only [BBVADebit.extract_movements_core, hsolve, Option.getD_some]
    rw [List.map_map]
    have : ((fun r => r.tipo) ∘ fun p : Nat × BBVADebit.Candidato =>
        ({ fecha_oper := p.2.fecha_oper, fecha_liq := p.2.fecha_liq,
           descripcion := p.2.descripcion, monto := p.2.monto,
           tipo := if s.contains p.1 then "Abono" else "Cargo" } : BBVADebit.Registro)) =
        (fun i => if s.contains i then "Abono" else "Cargo") ∘ Prod.fst := by
      funext p; rfl
    rw [this, ← List.map_map, List.enum_map_fst]

/-- Witness instantiating the universally quantified parts of C1 at the spec's
test vector. -/
theorem bbva_combinatorial_classifier_C1_witness :
    (BBVADebit.matchesTotal BBVADebit.exMontos 30000 [0, 1] = true ∧
      ∃ pre post,
        BBVADebit.subsetEnum BBVADebit.exMontos.length = pre ++ [0, 1] :: post ∧
          ∀ t ∈ pre, BBVADebit.matchesTotal BBVADebit.exMontos 30000 t = false) ∧
    (BBVADebit.extract_movements_core BBVADebit.exCandidatos 30000 52500).registros.map
        BBVADebit.Registro.tipo =
      (List.range BBVADebit.exCandidatos.length).map
        (fun i => if [0, 1].contains i then "Abono" else "Cargo") :=
  ⟨bbva_combinatorial_classifier_C1.1 BBVADebit.exMontos 30000 [0, 1]
      (by decide) (by decide),
   bbva_combinatorial_classifier_C1.2.1 BBVADebit.exCandidatos 30000 52500 [0, 1]
      (by decide)⟩

/-- C10: with the deposits summary line absent (`none`) or reporting `0.00`,
the declared total defaults to `0`, the empty subset counts as a found
solution, every candidate is classified `Cargo`, and no deposits-direction
diagnostic is emitted. -/
theorem bbva_zero_deposits_C10 :
    ∀ (cs : List BBVADebit.Candidato) (tr : ℤ) (m_dep : Option ℤ),
      m_dep = none ∨ m_dep = some 0 →
      (BBVADebit.extract_movements_core cs (BBVADebit.summaryDeposits m_dep) tr).found_solution
          = true ∧
      (BBVADebit.extract_movements_core cs (BBVADebit.summaryDeposits m_dep) tr).registros.all
          (fun r => r.tipo == "Cargo") = true ∧
      (BBVADebit.extract_movements_core cs (BBVADebit.summaryDeposits m_dep) tr).warn_deposits
          = false := by
  intro cs tr m_dep hm
  have htot : BBVADebit.summaryDeposits m_dep = 0 := by
    rcases hm with rfl | rfl <;> rfl
  rw [htot]
  have hsolve : BBVADebit.solveDeposits (cs.map (·.monto)) 0 = some [] := by
    simp [BBVADebit.solveDeposits]
  refine ⟨?_, ?_, ?_⟩
  · simp [BBVADebit.extract_movements_core, hsolve]
  · simp only [BBVADebit.extract_movements_core, hsolve, Option.getD_some]
    rw [List.all_eq_true]
    intro r hr
    simp only [List.mem_map] at hr
    obtain ⟨p, _, rfl⟩ := hr
    simp [List.contains]
  · simp [BBVADebit.extract_movements_core, hsolve]

/-- Witness for C10 at a concrete candidate list. -/
theorem bbva_zero_deposits_C10_witness :
    (BBVADebit.extract_movements_core BBVADebit.exCandidatos
        (BBVADebit.summaryDeposits none) 0).found_solution = true ∧
    (BBVADebit.extract_movements_core BBVADebit.exCandidatos
        (BBVADebit.summaryDeposits none) 0).registros.all
        (fun r => r.tipo == "Cargo") = true ∧
    (BBVADebit.extract_movements_core BBVADebit.exCandidatos
        (BBVADebit.summaryDeposits none) 0).warn_deposits = false :=
  bbva_zero_deposits_C10 BBVADebit.exCandidatos 0 none (Or.inl rfl)

/-- C2 counterexample: with the claimed tolerance `0.10` and the claimed
formula `expected_final = previous + credits - debits`, the header
`(100.00, 30.00, 20.00, 110.00)` with movements `Abono 30.00`, `Cargo 20.10`
should pass all three checks (the debit difference is exactly `0.10` and the
claimed expected final is `109.90`, within `0.10` of `110.00`); the code
returns `(false, true, false)` because its default tolerance is `0.05` and its
balance check uses `previous - credits + debits` built from the header's own
totals. -/
theorem validator_tolerance_C2_counterexample :
    Banorte.validation_report Banorte.exHeaderC2 Banorte.exMovsC2 Banorte.TOL_TDC
        = ⟨false, true, false⟩ ∧
    (Banorte.sum_cargos Banorte.exMovsC2 -
        Banorte.exHeaderC2.compras_cargos).natAbs = 10 ∧
    (Banorte.exHeaderC2.saldo_anterior + Banorte.sum_abonos Banorte.exMovsC2 -
        Banorte.sum_cargos Banorte.exMovsC2 -
        Banorte.exHeaderC2.saldo_actual).natAbs ≤ 10 := by
  decide

/-- C2 as amended: the Banorte credit validator compares the movement sums and
the header-derived balance `saldo_anterior - pagos_abonos + compras_cargos`
against the header, each with the boundary-inclusive default tolerance `0.05`
(five cents): a difference of exactly `0.05` passes and `0.06` fails; the
Scotiabank V2 `_almost_equal` is likewise boundary-inclusive and returns
`False` on a missing side. -/
theorem validator_tolerance_C2_amended :
    (∀ (h : Banorte.Header) (df : List Banorte.BanorteRow),
      Banorte.validation_report h df Banorte.TOL_TDC =
        ⟨decide ((Banorte.sum_cargos df - h.compras_cargos).natAbs ≤ 5),
         decide ((Banorte.sum_abonos df - h.pagos_abonos).natAbs ≤ 5),
         decide ((h.saldo_anterior - h.pagos_abonos + h.compras_cargos -
            h.saldo_actual).natAbs ≤ 5)⟩) ∧
    (∀ (h : Banorte.Header) (df : List Banorte.BanorteRow),
      (Banorte.sum_cargos df - h.compras_cargos).natAbs = 5 →
        (Banorte.validation_report h df Banorte.TOL_TDC).cargos_vs_resumen_ok = true) ∧
    (∀ (h : Banorte.Header) (df : List Banorte.BanorteRow),
      (Banorte.sum_cargos df - h.compras_cargos).natAbs = 6 →
        (Banorte.validation_report h df Banorte.TOL_TDC).cargos_vs_resumen_ok = false) ∧
    (∀ (x y : ℤ) (tol : ℕ),
      ScotiabankV2.almost_equal (some x) (some y) tol = decide ((x - y).natAbs ≤ tol)) ∧
    (∀ (b : Option ℤ) (tol : ℕ), ScotiabankV2.almost_equal none b tol = false) := by
  refine ⟨fun h df => rfl, ?_, ?_, fun x y tol => rfl, fun b tol => rfl⟩
  · intro h df hdiff
    simp [Banorte.validation_report, Banorte.TOL_TDC, hdiff]
  · intro h df hdiff
    simp [Banorte.validation_report, Banorte.TOL_TDC, hdiff]

/-- Witness for the hypothesis-bearing parts of the amended C2: a debit sum
off the header by exactly `0.05` passes, by exactly `0.06` fails. -/
theorem validator_tolerance_C2_witness :
    (Banorte.validation_report ⟨0, 0, 2000, 0⟩
        [⟨"01-ENE-2025", "01-ENE-2025", "COMPRA", 2005, "Cargo", "Regular"⟩]
        Banorte.TOL_TDC).cargos_vs_resumen_ok = true ∧
    (Banorte.validation_report ⟨0, 0, 2000, 0⟩
        [⟨"01-ENE-2025", "01-ENE-2025", "COMPRA", 2006, "Cargo", "Regular"⟩]
        Banorte.TOL_TDC).cargos_vs_resumen_ok = false :=
  ⟨validator_tolerance_C2_amended.2.1 ⟨0, 0, 2000, 0⟩
      [⟨"01-ENE-2025", "01-ENE-2025", "COMPRA", 2005, "Cargo", "Regular"⟩]
      (by decide),
   validator_tolerance_C2_amended.2.2.1 ⟨0, 0, 2000, 0⟩
      [⟨"01-ENE-2025", "01-ENE-2025", "COMPRA", 2006, "Cargo", "Regular"⟩]
      (by decide)⟩

/-- Helper: the empty string is not a Banorte regular record start. -/
theorem isRegularStart_empty : Banorte.isRegularStart "" = false := by decide

/-- C6: in `BanorteCreditParser._parse_regular_section`, a record-start line
with no amount token followed by two continuation lines, the second carrying
an amount token, yields exactly one row whose description is the space-joined
non-amount text of all three (stripped) lines and whose amount is the
absolute cent value of the resolving line's amount token. -/
theorem continuation_merge_C6 :
    ∀ (l1 l2 l3 a : String),
      Banorte.isRegularStart (pyStrip l1) = true →
      Banorte.searchAmount (pyStrip l1) = none →
      pyStrip l2 ≠ "" →
      Banorte.isRegularStart (pyStrip l2) = false →
      Banorte.searchAmount (pyStrip l2) = none →
      pyStrip l3 ≠ "" →
      Banorte.isRegularStart (pyStrip l3) = false →
      Banorte.searchAmount (pyStrip l3) = some a →
      Banorte.parse_regular_section [l1, l2, l3] =
        [{ fecha_oper := ((pySplitWs (pyStrip l1)).take 2).getD 0 ""
           fecha_liq := ((pySplitWs (pyStrip l1)).take 2).getD 1
             (((pySplitWs (pyStrip l1)).take 2).getD 0 "")
           descripcion :=
             pyStrip (joinSpace [pyStrip l1, pyStrip l2, pyReplace (pyStrip l3) a ""])
           monto := ((Banorte.parse_monto a).natAbs : ℤ)
           tipo := if a.data.contains '-' then "Abono" else "Cargo"
           categoria := "Regular" }] := by
  intro l1 l2 l3 a h1 h1a h2ne h2s h2a h3ne h3s h3a
  have h1ne : pyStrip l1 ≠ "" := by
    intro he
    rw [he] at h1
    exact absurd h1 (by decide)
  simp only [Banorte.parse_regular_section, List.foldl, Banorte.regStep,
    if_neg h1ne, h1, if_neg h2ne, h2s, if_neg h3ne, h3s, h1a, h2a, h3a,
    if_true, Bool.false_eq_true, if_false, Banorte.flushMov, List.nil_append,
    List.append_nil]
  rfl

/-- Witness for C6: a concrete three-line record resolved by the amount token
`+$1,234.56` on the third line. -/
theorem continuation_merge_C6_witness :
    Banorte.parse_regular_section
        ["12-NOV-2025 13-NOV-2025 COMPRA INTERNET",
         "AMAZON MX WWW.AMAZON.COM.MX",
         "REF 1234567 +$1,234.56"] =
      [{ fecha_oper :=
           ((pySplitWs (pyStrip "12-NOV-2025 13-NOV-2025 COMPRA INTERNET")).take 2).getD 0 ""
         fecha_liq :=
           ((pySplitWs (pyStrip "12-NOV-2025 13-NOV-2025 COMPRA INTERNET")).take 2).getD 1
             (((pySplitWs (pyStrip "12-NOV-2025 13-NOV-2025 COMPRA INTERNET")).take 2).getD 0 "")
         descripcion :=
           pyStrip (joinSpace [pyStrip "12-NOV-2025 13-NOV-2025 COMPRA INTERNET",
             pyStrip "AMAZON MX WWW.AMAZON.COM.MX",
             pyReplace (pyStrip "REF 1234567 +$1,234.56") "+$1,234.56" ""])
         monto := ((Banorte.parse_monto "+$1,234.56").natAbs : ℤ)
         tipo := if "+$1,234.56".data.contains '-' then "Abono" else "Cargo"
         categoria := "Regular" }] :=
  continuation_merge_C6 "12-NOV-2025 13-NOV-2025 COMPRA INTERNET"
    "AMAZON MX WWW.AMAZON.COM.MX" "REF 1234567 +$1,234.56" "+$1,234.56"
    (by decide) (by decide) (by decide) (by decide) (by decide)
    (by decide) (by decide) (by decide)

/-- Sanity check: the witness row evaluates to the expected concrete values. -/
example :
    Banorte.parse_regular_section
        ["12-NOV-2025 13-NOV-2025 COMPRA INTERNET",
         "AMAZON MX WWW.AMAZON.COM.MX",
         "REF 1234567 +$1,234.56"] =
      [⟨"12-NOV-2025", "13-NOV-2025",
        "12-NOV-2025 13-NOV-2025 COMPRA INTERNET AMAZON MX WWW.AMAZON.COM.MX REF 1234567",
        123456, "Cargo", "Regular"⟩] := by decide

/-- Sanity check: the C7 counterexample page extracts one classified row. -/
example :
    ScotiaDebit.extract_movements [ScotiaDebit.exPage] =
      [⟨"24 SEP", "24 SEP", "DEPOSITO", 150000, "Abono", "Regular", 250000⟩] := by
  decide

/-- C3 counterexample: a page whose single row carries neither deposit nor
withdrawal is still materialized by `ScotiabankDebitParser.extract_movements`
— with `tipo = "Desconocido"` and `monto = 0` — contradicting the claim that
every materialized row has `amount > 0` and direction `Abono` or `Cargo`. -/
theorem movement_invariant_C3_counterexample :
    ScotiaDebit.extract_movements [ScotiaDebit.exPageUnknown] =
      [⟨"24 SEP", "24 SEP", "COMISION", 0, "Desconocido", "Regular", 0⟩] ∧
    ¬ (∀ r ∈ ScotiaDebit.extract_movements [ScotiaDebit.exPageUnknown],
        0 < r.monto ∧ (r.tipo = "Abono" ∨ r.tipo = "Cargo")) := by
  decide

/-- C3 as amended: every row materialized by
`ScotiabankDebitParser.extract_movements` has direction `Abono`, `Cargo` or
`Desconocido`; its amount is positive exactly when the direction is `Abono` or
`Cargo`, and rows whose direction could not be resolved are materialized with
`tipo = "Desconocido"` and `monto = 0` rather than dropped. -/
theorem movement_invariant_C3_amended :
    ∀ (pages : List ScotiaDebit.Page) (r : ScotiaDebit.ScotiaRow),
      r ∈ ScotiaDebit.extract_movements pages →
        (r.tipo = "Abono" ∨ r.tipo = "Cargo" ∨ r.tipo = "Desconocido") ∧
        ((r.tipo = "Abono" ∨ r.tipo = "Cargo") → 0 < r.monto) ∧
        (r.tipo = "Desconocido" → r.monto = 0) := by
  intro pages r hr
  simp only [ScotiaDebit.extract_movements, List.mem_map] at hr
  obtain ⟨m, _, rfl⟩ := hr
  simp only [ScotiaDebit.normalizeRow]
  split_ifs with h1 h2
  · exact ⟨Or.inl rfl, fun _ => h1, by simp⟩
  · exact ⟨Or.inr (Or.inl rfl), fun _ => h2, by simp⟩
  · refine ⟨Or.inr (Or.inr rfl), ?_, fun _ => rfl⟩
    intro hc
    rcases hc with hc | hc <;> simp at hc

/-- Witness for the amended C3 at the counterexample pages: the classified
deposit row of `exPage` satisfies the invariant. -/
theorem movement_invariant_C3_witness :
    (((⟨"24 SEP", "24 SEP", "DEPOSITO", 150000, "Abono", "Regular", 250000⟩ :
        ScotiaDebit.ScotiaRow)).tipo = "Abono" ∨
      ((⟨"24 SEP", "24 SEP", "DEPOSITO", 150000, "Abono", "Regular", 250000⟩ :
        ScotiaDebit.ScotiaRow)).tipo = "Cargo" ∨
      ((⟨"24 SEP", "24 SEP", "DEPOSITO", 150000, "Abono", "Regular", 250000⟩ :
        ScotiaDebit.ScotiaRow)).tipo = "Desconocido") ∧
    ((((⟨"24 SEP", "24 SEP", "DEPOSITO", 150000, "Abono", "Regular", 250000⟩ :
        ScotiaDebit.ScotiaRow)).tipo = "Abono" ∨
      ((⟨"24 SEP", "24 SEP", "DEPOSITO", 150000, "Abono", "Regular", 250000⟩ :
        ScotiaDebit.ScotiaRow)).tipo = "Cargo") →
      0 < ((⟨"24 SEP", "24 SEP", "DEPOSITO", 150000, "Abono", "Regular", 250000⟩ :
        ScotiaDebit.ScotiaRow)).monto) ∧
    (((⟨"24 SEP", "24 SEP", "DEPOSITO", 150000, "Abono", "Regular", 250000⟩ :
        ScotiaDebit.ScotiaRow)).tipo = "Desconocido" →
      ((⟨"24 SEP", "24 SEP", "DEPOSITO", 150000, "Abono", "Regular", 250000⟩ :
        ScotiaDebit.ScotiaRow)).monto = 0) :=
  movement_invariant_C3_amended [ScotiaDebit.exPage]
    ⟨"24 SEP", "24 SEP", "DEPOSITO", 150000, "Abono", "Regular", 250000⟩
    (by decide)

/-- C7 counterexample: a page locating only five of the six expected columns
(`origen` missing) is not aborted — column detection succeeds and the page
still contributes a row — contradicting the claim that all expected header
columns must be located. -/
theorem column_detection_C7_counterexample :
    (ScotiaDebit.colX ScotiaDebit.exWords).length = 5 ∧
    (ScotiaDebit.colX ScotiaDebit.exWords).all (fun pr => pr.1 != "origen") = true ∧
    (ScotiaDebit.obtener_limites_columnas ScotiaDebit.exWords).isSome = true ∧
    ScotiaDebit.extraer_movimientos_pagina ScotiaDebit.exPage ≠ [] := by
  decide

/-- C7 as amended: a page needs at least 5 of the 6 expected columns; with
fewer, column detection aborts and the page contributes no rows, while each
page of a document is processed independently of the others. -/
theorem column_detection_C7_amended :
    (∀ (words : List ScotiaDebit.Word),
      (ScotiaDebit.colX words).length < 5 →
        ScotiaDebit.obtener_limites_columnas words = none) ∧
    (∀ (words : List ScotiaDebit.Word),
      5 ≤ (ScotiaDebit.colX words).length →
        (ScotiaDebit.obtener_limites_columnas words).isSome = true) ∧
    (∀ (p : ScotiaDebit.Page),
      ScotiaDebit.obtener_limites_columnas p.words = none →
        ScotiaDebit.extraer_movimientos_pagina p = []) ∧
    (∀ (p : ScotiaDebit.Page) (rest : List ScotiaDebit.Page),
      ScotiaDebit.extract_movements (p :: rest) =
        (ScotiaDebit.extraer_movimientos_pagina p).map ScotiaDebit.normalizeRow ++
          ScotiaDebit.extract_movements rest) := by
  refine ⟨?_, ?_, ?_, ?_⟩
  · intro words h
    simp only [ScotiaDebit.obtener_limites_columnas]
    rw [if_pos h]
  · intro words h
    simp only [ScotiaDebit.obtener_limites_columnas]
    rw [if_neg (by omega)]
    rfl
  · intro p h
    simp only [ScotiaDebit.extraer_movimientos_pagina, h]
    split_ifs <;> rfl
  · intro p rest
    simp [ScotiaDebit.extract_movements]

/-- Witness for the hypothesis-bearing parts of the amended C7: the
four-column page aborts and contributes nothing; the five-column page
passes column detection. -/
theorem column_detection_C7_witness :
    ScotiaDebit.obtener_limites_columnas ScotiaDebit.exWords4 = none ∧
    (ScotiaDebit.obtener_limites_columnas ScotiaDebit.exWords).isSome = true ∧
    ScotiaDebit.extraer_movimientos_pagina ScotiaDebit.exPage4 = [] :=
  ⟨column_detection_C7_amended.1 ScotiaDebit.exWords4 (by decide),
   column_detection_C7_amended.2.1 ScotiaDebit.exWords (by decide),
   column_detection_C7_amended.2.2.1 ScotiaDebit.exPage4
     (column_detection_C7_amended.1 ScotiaDebit.exWords4 (by decide))⟩

/-- Helper: the containing-period loop finds the first balance row whose
cutoff is on/after the target when everything before it is strictly
earlier. -/
theorem findContaining_eq (target : ℤ) :
    ∀ (pre : List Database.BalanceRec) (b : Database.BalanceRec)
      (post : List Database.BalanceRec) (acc : Option ℤ),
      (∀ p ∈ pre, p.dt_corte < target) →
      (∀ v, acc = some v → v < target) →
      target ≤ b.dt_corte →
      Database.findContaining target acc (pre ++ b :: post) =
        some (b, Database.lastCorte acc pre) := by
  intro pre
  induction pre with
  | nil =>
    intro b post acc hpre hacc hb
    cases acc with
    | none => simp [Database.findContaining, hb, Database.lastCorte]
    | some v =>
      have hv : v < target := hacc v rfl
      simp only [List.nil_append, Database.findContaining, Database.lastCorte]
      rw [if_pos ⟨hv, hb⟩]
  | cons p ps ih =>
    intro b post acc hpre hacc hb
    have hp : p.dt_corte < target := hpre p (by simp)
    have hnle : ¬ target ≤ p.dt_corte := by omega
    have hrec := ih b post (some p.dt_corte)
      (fun q hq => hpre q (by simp [hq])) (fun v hv => by cases hv; exact hp) hb
    cases acc with
    | none =>
      simpa [Database.findContaining, hnle, Database.lastCorte] using hrec
    | some v =>
      have : ¬ (v < target ∧ target ≤ p.dt_corte) := fun h => hnle h.2
      simpa [Database.findContaining, this, Database.lastCorte] using hrec

/-- Helper: when every cutoff is strictly before the target, no containing
period is found. -/
theorem findContaining_none (target : ℤ) :
    ∀ (l : List Database.BalanceRec) (acc : Option ℤ),
      (∀ p ∈ l, p.dt_corte < target) →
      Database.findContaining target acc l = none := by
  intro l
  induction l with
  | nil => intro acc _; cases acc <;> rfl
  | cons p ps ih =>
    intro acc h
    have hp : p.dt_corte < target := h p (by simp)
    have hnle : ¬ target ≤ p.dt_corte := by omega
    have hrec := ih (some p.dt_corte) (fun q hq => h q (by simp [hq]))
    cases acc with
    | none => simpa [Database.findContaining, hnle] using hrec
    | some v =>
      have : ¬ (v < target ∧ target ≤ p.dt_corte) := fun hh => hnle hh.2
      simpa [Database.findContaining, this] using hrec

/-- Helper: with a bracketing period at `b` (everything sorted before it
strictly earlier than the target, `b`'s cutoff on/after it), the
reconstructor returns `b`'s opening balance plus the replay of `b`'s period
movements dated strictly before the target. -/
theorem calc_bracket (balances : List Database.BalanceRec)
    (movs : List Database.MovRec) (target : ℤ)
    (pre : List Database.BalanceRec) (b : Database.BalanceRec)
    (post : List Database.BalanceRec)
    (hs : Database.sortBalances balances = pre ++ b :: post)
    (hpre : ∀ p ∈ pre, p.dt_corte < target)
    (hb : target ≤ b.dt_corte) :
    Database.calculate_starting_balance balances movs target =
      Database.applyMovs b.saldo_inicial
        ((movs.filter (Database.periodMask (Database.lastCorte none pre) b.dt_corte)).filter
          (fun m => decide (m.dt_oper < target))) := by
  have hfind : Database.findContaining target none (Database.sortBalances balances) =
      some (b, Database.lastCorte none pre) := by
    rw [hs]
    exact findContaining_eq target pre b post none hpre (fun v hv => by cases hv) hb
  cases balances with
  | nil => simp [Database.sortBalances] at hs
  | cons b0 bs =>
    cases movs with
    | nil =>
      simp only [Database.calculate_starting_balance, hfind, List.filter_nil,
        Database.applyMovs, List.foldl_nil]
    | cons m ms =>
      simp only [Database.calculate_starting_balance, hfind]
      cases hpm : (m :: ms).filter
          (Database.periodMask (Database.lastCorte none pre) b.dt_corte) with
      | nil =>
        simp only [hpm, List.filter_nil, Database.applyMovs, List.foldl_nil]
      | cons x xs =>
        simp only [hpm]

/-- Helper: when the target lies after every cutoff and at least one movement
exists, the reconstructor extrapolates from the last sorted balance's closing
anchor using the movements strictly between that cutoff and the target. -/
theorem calc_after (balances : List Database.BalanceRec) (m0 : Database.MovRec)
    (ms : List Database.MovRec) (target : ℤ)
    (pre : List Database.BalanceRec) (latest : Database.BalanceRec)
    (hs : Database.sortBalances balances = pre ++ [latest])
    (hall : ∀ p ∈ pre ++ [latest], p.dt_corte < target) :
    Database.calculate_starting_balance balances (m0 :: ms) target =
      Database.applyMovs latest.saldo_final
        ((m0 :: ms).filter (fun m =>
          decide (latest.dt_corte < m.dt_oper) && decide (m.dt_oper < target))) := by
  have hfind : Database.findContaining target none (Database.sortBalances balances) = none := by
    rw [hs]
    exact findContaining_none target _ none hall
  have hlast : (Database.sortBalances balances).getLast? = some latest := by
    rw [hs]
    exact List.getLast?_concat _
  cases balances with
  | nil => simp [Database.sortBalances] at hs
  | cons b0 bs =>
    simp only [Database.calculate_starting_balance, hfind, hlast]

/-- Helper: when the target lies after every cutoff but the account has no
movements at all, the reconstructor returns `0` (the early
`df_movements.empty` return). -/
theorem calc_after_empty (balances : List Database.BalanceRec) (target : ℤ)
    (pre : List Database.BalanceRec) (latest : Database.BalanceRec)
    (hs : Database.sortBalances balances = pre ++ [latest])
    (hall : ∀ p ∈ pre ++ [latest], p.dt_corte < target) :
    Database.calculate_starting_balance balances [] target = 0 := by
  have hfind : Database.findContaining target none (Database.sortBalances balances) = none := by
    rw [hs]
    exact findContaining_none target _ none hall
  cases balances with
  | nil => rfl
  | cons b0 bs =>
    simp only [Database.calculate_starting_balance, hfind]

/-- C4 counterexample: with one anchor (opening `10.00`, closing `50.00`,
cutoff day `5`), no recorded movements, and target day `10` (after every
cutoff), the code returns `0` instead of extrapolating the latest closing
anchor `50.00` (which a zero-movement replay would give). -/
theorem starting_balance_C4_counterexample :
    Database.calculate_starting_balance [⟨1000, 5000, 5⟩] [] 10 = 0 ∧
    Database.applyMovs 5000 ([] : List Database.MovRec) = 5000 ∧
    (0 : ℤ) ≠ 5000 := by decide

/-- C4 as amended: no anchors give `0`; a bracketing period (prior cutoffs
strictly before the target, own cutoff on/after it) gives its opening balance
plus the replay (`+Abono`, `-Cargo`) of its period movements dated strictly
before the target; a target after every cutoff extrapolates from the latest
closing anchor over the movements after that cutoff provided at least one
movement is recorded — with no recorded movements at all the code returns `0`
instead. -/
theorem starting_balance_C4_amended :
    (∀ (movs : List Database.MovRec) (target : ℤ),
      Database.calculate_starting_balance [] movs target = 0) ∧
    (∀ (balances : List Database.BalanceRec) (movs : List Database.MovRec)
      (target : ℤ) (pre : List Database.BalanceRec) (b : Database.BalanceRec)
      (post : List Database.BalanceRec),
      Database.sortBalances balances = pre ++ b :: post →
      (∀ p ∈ pre, p.dt_corte < target) →
      target ≤ b.dt_corte →
      Database.calculate_starting_balance balances movs target =
        Database.applyMovs b.saldo_inicial
          ((movs.filter (Database.periodMask (Database.lastCorte none pre) b.dt_corte)).filter
            (fun m => decide (m.dt_oper < target)))) ∧
    (∀ (balances : List Database.BalanceRec) (m0 : Database.MovRec)
      (ms : List Database.MovRec) (target : ℤ)
      (pre : List Database.BalanceRec) (latest : Database.BalanceRec),
      Database.sortBalances balances = pre ++ [latest] →
      (∀ p ∈ pre ++ [latest], p.dt_corte < target) →
      Database.calculate_starting_balance balances (m0 :: ms) target =
        Database.applyMovs latest.saldo_final
          ((m0 :: ms).filter (fun m =>
            decide (latest.dt_corte < m.dt_oper) && decide (m.dt_oper < target)))) ∧
    (∀ (balances : List Database.BalanceRec) (target : ℤ)
      (pre : List Database.BalanceRec) (latest : Database.BalanceRec),
      Database.sortBalances balances = pre ++ [latest] →
      (∀ p ∈ pre ++ [latest], p.dt_corte < target) →
      Database.calculate_starting_balance balances [] target = 0) :=
  ⟨fun _ _ => rfl, calc_bracket, calc_after, calc_after_empty⟩

/-- Witness instantiating the amended C4 at concrete anchors and movements:
a bracketed target, an extrapolated target with one movement, and the
zero-result with no movements. -/
theorem starting_balance_C4_witness :
    (Database.calculate_starting_balance [⟨1000, 2000, 10⟩]
        [⟨500, "Abono", 4⟩, ⟨200, "Cargo", 12⟩] 6 =
      Database.applyMovs 1000
        (([⟨500, "Abono", 4⟩, ⟨200, "Cargo", 12⟩].filter
            (Database.periodMask (Database.lastCorte none []) 10)).filter
          (fun m => decide (m.dt_oper < 6)))) ∧
    (Database.calculate_starting_balance [⟨1000, 2000, 10⟩] [⟨500, "Abono", 12⟩] 20 =
      Database.applyMovs 2000
        ([⟨500, "Abono", 12⟩].filter (fun m =>
          decide ((10 : ℤ) < m.dt_oper) && decide (m.dt_oper < 20)))) ∧
    Database.calculate_starting_balance [⟨1000, 2000, 10⟩] [] 20 = 0 :=
  ⟨starting_balance_C4_amended.2.1 [⟨1000, 2000, 10⟩] _ 6 [] ⟨1000, 2000, 10⟩ []
      (by decide) (by simp) (by decide),
   starting_balance_C4_amended.2.2.1 [⟨1000, 2000, 10⟩] ⟨500, "Abono", 12⟩ [] 20 []
      ⟨1000, 2000, 10⟩ (by decide) (by decide),
   starting_balance_C4_amended.2.2.2 [⟨1000, 2000, 10⟩] 20 [] ⟨1000, 2000, 10⟩
      (by decide) (by decide)⟩

/-- C5 counterexample: one anchor (opening `0`, closing `100.00`, cutoff day
`10`) whose closing balance is exactly the opening plus the full period replay
(anchors complete), with the single `100.00` credit dated on the cutoff day
itself; reconstructing at the cutoff date returns `0`, not the stored closing
anchor `100.00`, because the replay excludes movements dated on the target
day. -/
theorem balance_idempotence_C5_counterexample :
    Database.calculate_starting_balance [⟨0, 10000, 10⟩] [⟨10000, "Abono", 10⟩] 10 = 0 ∧
    Database.applyMovs 0
        ([⟨10000, "Abono", 10⟩].filter
          (Database.periodMask (Database.lastCorte none []) 10)) = 10000 ∧
    (0 : ℤ) ≠ 10000 := by decide

/-- C5 as amended: reconstructing the balance at a period's cutoff date
returns that period's stored closing anchor exactly, provided the anchor is
consistent (closing balance equals opening plus the full period replay) and no
movement of the account is dated on the cutoff date itself (such movements are
excluded by the strict `dt_oper < target` replay bound). -/
theorem balance_idempotence_C5_amended :
    ∀ (balances : List Database.BalanceRec) (movs : List Database.MovRec)
      (pre : List Database.BalanceRec) (b : Database.BalanceRec)
      (post : List Database.BalanceRec),
      Database.sortBalances balances = pre ++ b :: post →
      (∀ p ∈ pre, p.dt_corte < b.dt_corte) →
      b.saldo_final =
        Database.applyMovs b.saldo_inicial
          (movs.filter (Database.periodMask (Database.lastCorte none pre) b.dt_corte)) →
      (∀ m ∈ movs, m.dt_oper ≠ b.dt_corte) →
      Database.calculate_starting_balance balances movs b.dt_corte = b.saldo_final := by
  intro balances movs pre b post hs hpre hcons hnc
  rw [calc_bracket balances movs b.dt_corte pre b post hs hpre (le_refl _)]
  have hfilter :
      (movs.filter (Database.periodMask (Database.lastCorte none pre) b.dt_corte)).filter
        (fun m => decide (m.dt_oper < b.dt_corte)) =
      movs.filter (Database.periodMask (Database.lastCorte none pre) b.dt_corte) := by
    apply List.filter_eq_self.mpr
    intro m hm
    have hmem := List.mem_filter.mp hm
    have hle : m.dt_oper ≤ b.dt_corte := by
      have hmask := hmem.2
      cases hlc : Database.lastCorte none pre with
      | none =>
        rw [hlc] at hmask
        simpa [Database.periodMask] using hmask
      | some v =>
        rw [hlc] at hmask
        simp only [Database.periodMask, Bool.and_eq_true, decide_eq_true_eq] at hmask
        exact hmask.2
    have hne := hnc m hmem.1
    simp only [decide_eq_true_eq]
    omega
  rw [hfilter, ← hcons]

/-- Witness for the amended C5: a single consistent anchor whose only
movement is dated before the cutoff reconstructs the closing anchor
exactly. -/
theorem balance_idempotence_C5_witness :
    Database.calculate_starting_balance [⟨0, 7000, 10⟩] [⟨7000, "Abono", 5⟩] 10 =
      (⟨0, 7000, 10⟩ : Database.BalanceRec).saldo_final :=
  balance_idempotence_C5_amended [⟨0, 7000, 10⟩] [⟨7000, "Abono", 5⟩] [] ⟨0, 7000, 10⟩ []
    (by decide) (by simp) (by decide) (by decide)

/-- Helper: the boolean substring scan agrees with list-infix. -/
theorem infixAt_iff (pat : List Char) :
    ∀ (l : List Char), infixAt pat l = true ↔ pat <:+: l := by
  intro l
  induction l with
  | nil =>
    simp only [infixAt, List.isEmpty_iff, List.infix_nil]
  | cons c rest ih =>
    simp only [infixAt, Bool.or_eq_true, List.infix_cons_iff, ih,
      List.isPrefixOf_iff_prefix]

/-- Helper: infix containment is preserved by mapping a function over both
lists. -/
theorem isInfix_map (f : Char → Char) (l₁ l₂ : List Char) (h : l₁ <:+: l₂) :
    l₁.map f <:+: l₂.map f := by
  obtain ⟨s, t, rfl⟩ := h
  exact ⟨s.map f, t.map f, by simp⟩

/-- C9: any input text containing the substring `COMPRAS Y CARGOS DIFERIDOS`
(in particular a BBVA credit statement with the installment section header
`COMPRAS Y CARGOS DIFERIDOS A MESES SIN INTERESES`) is routed to
`ScotiabankV2Parser` by the effective `get_parser`, because the Scotiabank
branch is evaluated first over the full text. -/
theorem dispatcher_compras_diferidos_C9 :
    ∀ (t : String), "COMPRAS Y CARGOS DIFERIDOS".data <:+: t.data →
      getParser t = some ParserChoice.scotiabankV2 := by
  intro t h
  have hup : "COMPRAS Y CARGOS DIFERIDOS".data.map Char.toUpper =
      "COMPRAS Y CARGOS DIFERIDOS".data := by decide
  have h2 : "COMPRAS Y CARGOS DIFERIDOS".data <:+: (pyUpper t).data := by
    have hm := isInfix_map Char.toUpper _ _ h
    rw [hup] at hm
    exact hm
  have hb : containsSub "COMPRAS Y CARGOS DIFERIDOS" (pyUpper t) = true :=
    (infixAt_iff _ _).mpr h2
  simp only [getParser, hb, Bool.or_true, Bool.true_or, if_true]

/-- Witness for C9: a text carrying both `BBVA` and the BBVA credit
installment section header is dispatched to `ScotiabankV2Parser`. -/
theorem dispatcher_compras_diferidos_C9_witness :
    getParser
        "BBVA MEXICO ESTADO DE CUENTA COMPRAS Y CARGOS DIFERIDOS A MESES SIN INTERESES" =
      some ParserChoice.scotiabankV2 :=
  dispatcher_compras_diferidos_C9
    "BBVA MEXICO ESTADO DE CUENTA COMPRAS Y CARGOS DIFERIDOS A MESES SIN INTERESES"
    ⟨"BBVA MEXICO ESTADO DE CUENTA ".data, " A MESES SIN INTERESES".data, by decide⟩

set_option maxRecDepth 100000 in
/-- C8 counterexample: the effective `get_parser` selects the Scotiabank
parser for a statement whose first 1000 characters identify only BBVA and
which mentions `SCOTIABANK` solely in a transaction description beyond them —
the keyword checks are not restricted to an early prefix. -/
theorem dispatcher_prefix_C8_counterexample :
    getParser c8Text = some ParserChoice.scotiabankV2 ∧
    containsSub "SCOTIABANK" (pyTake (pyUpper c8Text) 1000) = false ∧
    containsSub "BBVA" (pyTake (pyUpper c8Text) 1000) = true := by decide

/-- C8 as amended: the effective `get_parser` runs its keyword checks over the
full text with the Scotiabank branch first, so `SCOTIABANK` anywhere in the
text selects `ScotiabankV2Parser`; only the earlier shadowed definition
restricted the `SCOTIABANK` check to the first 1000 characters and checked
BBVA first, so any text mentioning `BBVA` or `BANCOMER` got a BBVA parser
there. -/
theorem dispatcher_prefix_C8_amended :
    (∀ (t : String), containsSub "SCOTIABANK" (pyUpper t) = true →
      getParser t = some ParserChoice.scotiabankV2) ∧
    (∀ (t : String),
      containsSub "BBVA" (pyUpper t) = true ∨ containsSub "BANCOMER" (pyUpper t) = true →
      getParserShadowed t = some ParserChoice.bbvaDebit ∨
        getParserShadowed t = some ParserChoice.bbvaCredit) := by
  constructor
  · intro t h
    simp only [getParser, h, Bool.true_or, if_true]
  · intro t h
    have hor : (containsSub "BBVA" (pyUpper t) ||
        containsSub "BANCOMER" (pyUpper t)) = true := by
      rcases h with h | h <;> simp [h]
    simp only [getParserShadowed, hor, if_true]
    by_cases hd : containsSub "DETALLE DE MOVIMIENTOS REALIZADOS" (pyUpper t) = true
    · rw [if_pos hd]
      exact Or.inl rfl
    · rw [if_neg hd]
      exact Or.inr rfl

/-- Witness for the amended C8 at concrete texts. -/
theorem dispatcher_prefix_C8_witness :
    getParser "SCOTIABANK INVERLAT ESTADO DE CUENTA" = some ParserChoice.scotiabankV2 ∧
    (getParserShadowed "BBVA BANCOMER DETALLE DE MOVIMIENTOS REALIZADOS" =
        some ParserChoice.bbvaDebit ∨
      getParserShadowed "BBVA BANCOMER DETALLE DE MOVIMIENTOS REALIZADOS" =
        some ParserChoice.bbvaCredit) :=
  ⟨dispatcher_prefix_C8_amended.1 "SCOTIABANK INVERLAT ESTADO DE CUENTA" (by decide),
   dispatcher_prefix_C8_amended.2 "BBVA BANCOMER DETALLE DE MOVIMIENTOS REALIZADOS"
     (Or.inl (by decide))⟩
